import Mathlib

/-!
Shallow embedding of the `sc-token-release` smart contract
(`src/token_release.rs` together with the `ScheduleType` record of
`src/contract_data.rs`).

Modelling conventions.

* `BigUint` values are `Nat` (arbitrary-precision, unsigned).  Subtracting a
  larger `BigUint` from a smaller one aborts the transaction in the VM; such
  aborts are modelled by returning `none`.
* `u64` / `u8` machine integers are `Nat`.  The contract crate ships no build
  profile in the sources, and the specification demands overflow-checked
  fixed-width arithmetic throughout, so the primary model treats every `u64`
  overflow or underflow as an abort (`none`).  For `remove_user` a second,
  explicitly named release-mode variant with wrapping arithmetic modulo
  `2 ^ 64` is also provided, because the zero-counter decrement there is
  reachable and its two possible behaviours (trap / wrap) are both of
  interest.
* Storage mappers are total functions with the "empty storage" value made
  explicit: an absent `Vec<ManagedBuffer>` is `[]`, an absent `u64` is `0`,
  an absent `BigUint` is `0`, an absent `ManagedAddress` is `none`.
  `group_schedule` is an association list with (invariantly) unique keys;
  reading an absent `ScheduleType` entry aborts in the VM (top-decoding an
  empty buffer fails), which the model renders as `none` from `findGroup`
  propagating to an aborted computation.
* The external effects, `esdt_local_mint` and `direct` send, are logged in
  the state fields `minted` and `sent`.
* `require!` failures and VM aborts both make the whole call fail with no
  state change; operations therefore return `Option State` (or `Except`
  with a distinguished error for `claim_tokens`, whose error identity
  matters to the claims).
-/

namespace TokenRelease

abbrev GroupId := Nat
abbrev Address := Nat

def U64_MOD : Nat := 2 ^ 64

/-- `ScheduleType` from `contract_data.rs`; `BigUint` fields as `Nat`,
`u8`/`u64` fields as `Nat`. -/
structure ScheduleType where
  group_total_amount : Nat
  is_fixed_amount : Bool
  group_unlock_percent : Nat
  period_unlock_amount : Nat
  release_period : Nat
  release_ticks : Nat
deriving DecidableEq, Repr

/-- The whole contract storage plus the log of external effects. -/
structure State where
  activation_timestamp : Nat
  setup_period_status : Bool
  token_total_supply : Nat
  group_schedule : List (GroupId × ScheduleType)
  user_groups : Address → List GroupId
  users_in_group : GroupId → Nat
  claimed_balance : Address → Nat
  address_change_request : Address → Option Address
  roles_set : Bool
  minted : List Nat
  sent : List (Address × Nat)

/-- State right after `init` (token identifier validity is checked there and
not otherwise used by the modelled endpoints; `roles` records whether the
external ESDT mint/burn roles are provisioned). -/
def initState (now : Nat) (roles : Bool) : State where
  activation_timestamp := now
  setup_period_status := true
  token_total_supply := 0
  group_schedule := []
  user_groups := fun _ => []
  users_in_group := fun _ => 0
  claimed_balance := fun _ => 0
  address_change_request := fun _ => none
  roles_set := roles
  minted := []
  sent := []

/-- Lookup in the `group_schedule` storage mapper. -/
def findGroup (g : GroupId) : List (GroupId × ScheduleType) → Option ScheduleType
  | [] => none
  | (k, sch) :: rest => if g = k then some sch else findGroup g rest

/-- `group_schedule(id).clear()`: remove every entry stored under key `g`. -/
def eraseGroup (g : GroupId) : List (GroupId × ScheduleType) → List (GroupId × ScheduleType)
  | [] => []
  | (k, sch) :: rest =>
    if k = g then eraseGroup g rest else (k, sch) :: eraseGroup g rest

/-- The two storage writes at the end of a successful `add_group`. -/
def store_new_group (s : State) (g : GroupId) (new_group : ScheduleType) : State :=
  { s with
    token_total_supply := s.token_total_supply + new_group.group_total_amount
    group_schedule := s.group_schedule ++ [(g, new_group)] }

/-- `add_group` endpoint (owner-only; the caller is assumed to be the owner). -/
def add_group (s : State) (group_identifier : GroupId) (group_total_amount : Nat)
    (is_fixed_amount : Bool) (group_unlock_percent : Nat) (period_unlock_amount : Nat)
    (release_period : Nat) (release_ticks : Nat) : Option State :=
  if s.setup_period_status = false then none
  else if (findGroup group_identifier s.group_schedule).isSome then none
  else if release_ticks = 0 then none
  else if group_total_amount = 0 then none
  else if is_fixed_amount then
    if period_unlock_amount * release_ticks = group_total_amount then
      some (store_new_group s group_identifier
        ⟨group_total_amount, is_fixed_amount, group_unlock_percent,
          period_unlock_amount, release_period, release_ticks⟩)
    else none
  else
    if group_unlock_percent * release_ticks = 100 then
      some (store_new_group s group_identifier
        ⟨group_total_amount, is_fixed_amount, group_unlock_percent,
          period_unlock_amount, release_period, release_ticks⟩)
    else none

/-- `remove_group` endpoint.  `token_supply -= group_total_amount` is a
`BigUint` subtraction, which aborts when it would go negative. -/
def remove_group (s : State) (group_identifier : GroupId) : Option State :=
  if s.setup_period_status = false then none
  else match findGroup group_identifier s.group_schedule with
  | none => none
  | some group =>
    if group.group_total_amount ≤ s.token_total_supply then
      some { s with
        token_total_supply := s.token_total_supply - group.group_total_amount
        group_schedule := eraseGroup group_identifier s.group_schedule
        users_in_group := fun k => if k = group_identifier then 0 else s.users_in_group k }
    else none

/-- `update_users_in_group`, overflow-checked `u64` semantics: `+= 1`
aborts above `2 ^ 64 - 1`, `-= 1` aborts on a zero counter. -/
def update_users_in_group (s : State) (group_identifier : GroupId)
    (user_is_added : Bool) : Option State :=
  let c := s.users_in_group group_identifier
  if user_is_added then
    if c + 1 < U64_MOD then
      some { s with users_in_group :=
        fun k => if k = group_identifier then c + 1 else s.users_in_group k }
    else none
  else
    if c = 0 then none
    else
      some { s with users_in_group :=
        fun k => if k = group_identifier then c - 1 else s.users_in_group k }

/-- `update_users_in_group`, release-build wrapping `u64` semantics
(arithmetic modulo `2 ^ 64`). -/
def update_users_in_group_wrap (s : State) (group_identifier : GroupId)
    (user_is_added : Bool) : State :=
  let c := s.users_in_group group_identifier
  let c1 := if user_is_added then (c + 1) % U64_MOD else (c + (U64_MOD - 1)) % U64_MOD
  { s with users_in_group :=
      fun k => if k = group_identifier then c1 else s.users_in_group k }

/-- `add_user_group` endpoint. -/
def add_user_group (s : State) (address : Address) (group_identifier : GroupId) :
    Option State :=
  if s.setup_period_status = false then none
  else if (findGroup group_identifier s.group_schedule).isNone then none
  else if s.user_groups address ≠ [] then
    if group_identifier ∈ s.user_groups address then some s
    else
      (update_users_in_group s group_identifier true).map fun st =>
        { st with user_groups :=
            fun x => if x = address then s.user_groups address ++ [group_identifier]
                     else st.user_groups x }
  else
    (update_users_in_group s group_identifier true).map fun st =>
      { st with user_groups :=
          fun x => if x = address then [group_identifier] else st.user_groups x }

/-- The loop of `remove_user` over the address's stored group list,
checked semantics. -/
def remove_user_loop : State → List GroupId → Option State
  | s, [] => some s
  | s, g :: rest =>
    match update_users_in_group s g false with
    | none => none
    | some s1 => remove_user_loop s1 rest

/-- `remove_user` endpoint, overflow-checked semantics. -/
def remove_user (s : State) (address : Address) : Option State :=
  if s.setup_period_status = false then none
  else if s.user_groups address = [] then none
  else match remove_user_loop s (s.user_groups address) with
  | none => none
  | some s1 =>
    some { s1 with
      user_groups := fun x => if x = address then [] else s1.user_groups x
      claimed_balance := fun x => if x = address then 0 else s1.claimed_balance x }

/-- The loop of `remove_user`, wrapping semantics. -/
def remove_user_loop_wrap : State → List GroupId → State
  | s, [] => s
  | s, g :: rest => remove_user_loop_wrap (update_users_in_group_wrap s g false) rest

/-- `remove_user` endpoint, release-build wrapping semantics. -/
def remove_user_wrap (s : State) (address : Address) : Option State :=
  if s.setup_period_status = false then none
  else if s.user_groups address = [] then none
  else
    let s1 := remove_user_loop_wrap s (s.user_groups address)
    some { s1 with
      user_groups := fun x => if x = address then [] else s1.user_groups x
      claimed_balance := fun x => if x = address then 0 else s1.claimed_balance x }

/-- `request_address_change` endpoint (`caller` is the transaction caller). -/
def request_address_change (s : State) (caller new_address : Address) : Option State :=
  if s.setup_period_status = true then none
  else some { s with address_change_request :=
    fun x => if x = caller then some new_address else s.address_change_request x }

/-- `approve_address_change` endpoint.  The new address is written first and
the old address cleared afterwards, exactly as in the source (the order is
observable when the requested new address equals the old one). -/
def approve_address_change (s : State) (user_address : Address) : Option State :=
  if s.setup_period_status = true then none
  else match s.address_change_request user_address with
  | none => none
  | some new_address =>
    let user_current_groups := s.user_groups user_address
    let user_claimed_balance := s.claimed_balance user_address
    let s1 : State := { s with
      user_groups :=
        fun x => if x = new_address then user_current_groups else s.user_groups x
      claimed_balance :=
        fun x => if x = new_address then user_claimed_balance else s.claimed_balance x }
    some { s1 with
      user_groups := fun x => if x = user_address then [] else s1.user_groups x
      claimed_balance := fun x => if x = user_address then 0 else s1.claimed_balance x
      address_change_request :=
        fun x => if x = user_address then none else s1.address_change_request x }

/-- `end_setup_period` endpoint.  Note: the source has no
`require_setup_period_live` here — only the mint/burn-role check guards it —
and it unconditionally mints `token_total_supply`. -/
def end_setup_period (s : State) : Option State :=
  if s.roles_set then
    some { s with
      setup_period_status := false
      minted := s.minted ++ [s.token_total_supply] }
  else none

/-- The per-group payout expression of `calculate_claimable_tokens`
(`Nat` division is the `BigUint` floor division of the source). -/
def group_payout (sch : ScheduleType) (periods_passed users_in_group_no : Nat) : Nat :=
  if sch.is_fixed_amount then
    periods_passed * sch.period_unlock_amount / users_in_group_no
  else
    periods_passed * sch.group_total_amount * sch.group_unlock_percent / 100 /
      users_in_group_no

/-- One iteration of the loop of `calculate_claimable_tokens`: the
contribution of one group identifier from the address's list.  Aborts
(`none`) when the stored schedule is absent (decode failure), when
`current_timestamp - starting_timestamp` underflows, when
`release_period = 0` (`u64` division by zero), or when the pro-rata division
hits a zero member counter (`BigUint` division by zero). -/
def group_claimable (s : State) (current_timestamp : Nat) (group_identifier : GroupId) :
    Option Nat :=
  match findGroup group_identifier s.group_schedule with
  | none => none
  | some schedule_type =>
    if current_timestamp < s.activation_timestamp then none
    else if schedule_type.release_period = 0 then none
    else
      let time_passed := current_timestamp - s.activation_timestamp
      let periods_passed :=
        min (time_passed / schedule_type.release_period) schedule_type.release_ticks
      if 0 < periods_passed then
        if s.users_in_group group_identifier = 0 then none
        else some (group_payout schedule_type periods_passed
          (s.users_in_group group_identifier))
      else some 0

/-- Left-to-right accumulation of the loop of `calculate_claimable_tokens`:
each iteration's contribution is added to the accumulator, and an abort in
any iteration aborts the whole computation. -/
def sum_claimable (s : State) (current_timestamp : Nat) : List GroupId → Option Nat
  | [] => some 0
  | g :: rest =>
    (group_claimable s current_timestamp g).bind fun c =>
      (sum_claimable s current_timestamp rest).map fun r => c + r

/-- `calculate_claimable_tokens`, with the block timestamp made explicit. -/
def calculate_claimable_tokens (s : State) (address : Address)
    (current_timestamp : Nat) : Option Nat :=
  sum_claimable s current_timestamp (s.user_groups address)

/-- Failure modes of `claim_tokens` that the claims distinguish. -/
inductive ClaimErr where
  | setupActive
  | abortedComputation
  | nothingToClaim
deriving DecidableEq, Repr

/-- The two effects of a successful `claim_tokens`: the `direct` send of
`amount` to the caller and the write
`claimed_balance(caller) := current_balance + amount`. -/
def apply_claim (s : State) (caller : Address) (amount : Nat) : State :=
  { s with
    sent := s.sent ++ [(caller, amount)]
    claimed_balance :=
      fun x => if x = caller then s.claimed_balance caller + amount
               else s.claimed_balance x }

/-- `claim_tokens` endpoint.  A failure carries no state: the VM rolls the
whole call back. -/
def claim_tokens (s : State) (caller : Address) (current_timestamp : Nat) :
    Except ClaimErr (State × Nat) :=
  if s.setup_period_status = true then Except.error ClaimErr.setupActive
  else match calculate_claimable_tokens s caller current_timestamp with
  | none => Except.error ClaimErr.abortedComputation
  | some total_claimable_amount =>
    let current_balance := s.claimed_balance caller
    if current_balance < total_claimable_amount then
      let current_claimable_amount := total_claimable_amount - current_balance
      Except.ok (apply_claim s caller current_claimable_amount, current_claimable_amount)
    else Except.error ClaimErr.nothingToClaim

/-- States reachable from `init` by successful `add_group` / `remove_group`
calls (the operation sequences quantified over by the supply-conservation
claim). -/
inductive Reachable : State → Prop where
  | init (now : Nat) (roles : Bool) : Reachable (initState now roles)
  | add (s s' : State) (g ta : Nat) (fx : Bool) (pct ua rp rt : Nat) :
      Reachable s → add_group s g ta fx pct ua rp rt = some s' → Reachable s'
  | remove (s s' : State) (g : GroupId) :
      Reachable s → remove_group s g = some s' → Reachable s'

/-- Sum of `group_total_amount` over the stored (live) group schedules. -/
def sumGroupAmounts (l : List (GroupId × ScheduleType)) : Nat :=
  (l.map (fun p => p.2.group_total_amount)).sum

/-- The schedule consistency invariant enforced by `add_group`. -/
def ScheduleWF (sch : ScheduleType) : Prop :=
  if sch.is_fixed_amount then
    sch.period_unlock_amount * sch.release_ticks = sch.group_total_amount
  else
    sch.group_unlock_percent * sch.release_ticks = 100

/-- The upper bound named by the spec for one group of an address:
`group_total_amount / member_count` (0-valued lookup for an absent group,
matching a contribution-free abort bound). -/
def group_bound (s : State) (g : GroupId) : Nat :=
  (match findGroup g s.group_schedule with
   | some sch => sch.group_total_amount
   | none => 0) / s.users_in_group g

/-- The spec's claim bound for an address: the sum of `group_bound` over the
address's stored group list. -/
def claim_bound (s : State) (address : Address) : Nat :=
  ((s.user_groups address).map (group_bound s)).sum

/-! ### Concrete states used by the closed theorems

A fixed-amount group `1` (total 100, 10 unlocks of 10 every 10 seconds), a
member address `5`, and the states reached from `init` by the endpoint calls
of interest. -/

def cInit : State := initState 0 true

def cAdded : State := (add_group cInit 1 100 true 0 10 10 10).getD cInit

def cMember : State := (add_user_group cAdded 5 1).getD cAdded

def cClosed : State := (end_setup_period cMember).getD cMember

def cDoubleEnd : State := (end_setup_period cClosed).getD cClosed

def cRemoved : State := (remove_group cMember 1).getD cMember

def cRemovedWrap : State := (remove_user_wrap cRemoved 5).getD cRemoved

def cAfterClaim : State :=
  match claim_tokens cClosed 5 10 with
  | Except.ok (t, _) => t
  | Except.error _ => cClosed

def cReqSelf : State := (request_address_change cClosed 5 5).getD cClosed

def cAppSelf : State := (approve_address_change cReqSelf 5).getD cReqSelf

def cReq9 : State := (request_address_change cClosed 5 9).getD cClosed

def cApp9 : State := (approve_address_change cReq9 5).getD cReq9

/-- A percentage group `2` (total 500, 25 percent over 4 ticks of 7 seconds)
with member address `8`, used for the overwrite counterexample. -/
def c9a : State := (add_group cInit 2 500 false 25 0 7 4).getD cInit

def c9b : State := (add_user_group c9a 8 2).getD c9a

def c9c : State := (end_setup_period c9b).getD c9b

def c9req : State := (request_address_change c9c 8 8).getD c9c

def c9app : State := (approve_address_change c9req 8).getD c9req

/-- Two groups with distinct members: address 5 in group 1, address 9 in
group 2; then address 5 requests a change to address 9. -/
def w9a : State := (add_group cMember 2 500 false 25 0 7 4).getD cMember

def w9b : State := (add_user_group w9a 9 2).getD w9a

def w9c : State := (end_setup_period w9b).getD w9b

def w9d : State := (request_address_change w9c 5 9).getD w9c

def w9e : State := (approve_address_change w9d 5).getD w9d

/-! ### Helper lemmas -/

theorem group_claimable_of_findGroup_none {s : State} {t : Nat} {g : GroupId}
    (h : findGroup g s.group_schedule = none) : group_claimable s t g = none := by
  unfold group_claimable
  rw [h]

theorem sum_claimable_none_of_mem {s : State} {t : Nat} {g : GroupId} {l : List GroupId}
    (hmem : g ∈ l) (hnone : group_claimable s t g = none) :
    sum_claimable s t l = none := by
  induction l with
  | nil => simp at hmem
  | cons a rest ih =>
    rcases List.mem_cons.mp hmem with h | h
    · subst h
      simp [sum_claimable, hnone]
    · cases ha : group_claimable s t a with
      | none => simp [sum_claimable, ha]
      | some c => simp [sum_claimable, ha, ih h]

/-! ### C1 -/

/-- C1: the claim says a second `end_setup_period` call fails or is a safe
no-op and never mints twice.  The code has no setup-period guard there: from
the state `cMember` (one group of 100 tokens, setup live, roles set) two
consecutive calls both succeed, and each one mints the whole
`token_total_supply`, so 200 tokens are minted for a 100-token supply. -/
theorem end_setup_period_double_mint :
    end_setup_period cMember = some cClosed ∧
    end_setup_period cClosed = some cDoubleEnd ∧
    cClosed.setup_period_status = false ∧
    cClosed.minted = [100] ∧
    cDoubleEnd.minted = [100, 100] :=
  ⟨rfl, rfl, by decide, by decide, by decide⟩

/-! ### C2 -/

/-- C2 counterexample: after `remove_group` deletes group 1 while address 5
still lists it, `calculate_claimable_tokens` does not return any value (the
stored schedule is gone, so the storage read aborts the call, modelled as
`none`); in particular it is not total and does not treat the removed
group's contribution as zero. -/
theorem calculate_claimable_removed_group_counterexample :
    remove_group cMember 1 = some cRemoved ∧
    cRemoved.user_groups 5 = [1] ∧
    findGroup 1 cRemoved.group_schedule = none ∧
    calculate_claimable_tokens cRemoved 5 20 = none :=
  ⟨rfl, by decide, by decide, by decide⟩

/-- C2 amended: whenever an address's stored group list contains an
identifier with no stored schedule (as after `remove_group`),
`calculate_claimable_tokens` aborts the call (`none`) instead of treating
the missing group's contribution as zero. -/
theorem calculate_claimable_removed_group_aborts (s : State) (a : Address)
    (g : GroupId) (now : Nat) (hmem : g ∈ s.user_groups a)
    (hmiss : findGroup g s.group_schedule = none) :
    calculate_claimable_tokens s a now = none :=
  sum_claimable_none_of_mem hmem (group_claimable_of_findGroup_none hmiss)

/-- C2 amended, witness at a concrete reachable state. -/
theorem calculate_claimable_removed_group_aborts_witness :
    calculate_claimable_tokens cRemoved 5 50 = none :=
  calculate_claimable_removed_group_aborts cRemoved 5 1 50 (by decide) (by decide)

/-! ### C3 -/

theorem findGroup_isSome_of_mem {g : GroupId} {l : List (GroupId × ScheduleType)}
    (h : g ∈ l.map Prod.fst) : (findGroup g l).isSome := by
  induction l with
  | nil => simp at h
  | cons p rest ih =>
    obtain ⟨k, sch⟩ := p
    simp only [List.map_cons, List.mem_cons] at h
    unfold findGroup
    by_cases hk : g = k
    · simp [hk]
    · rcases h with h | h
      · exact absurd h hk
      · simpa [hk] using ih h

theorem eraseGroup_keys_sublist (g : GroupId) (l : List (GroupId × ScheduleType)) :
    List.Sublist ((eraseGroup g l).map Prod.fst) (l.map Prod.fst) := by
  induction l with
  | nil => exact List.Sublist.refl _
  | cons p rest ih =>
    obtain ⟨k, sch⟩ := p
    unfold eraseGroup
    by_cases hk : k = g
    · rw [if_pos hk]
      exact ih.trans (List.sublist_cons_self _ _)
    · rw [if_neg hk]
      simpa using List.Sublist.cons₂ k ih

theorem eraseGroup_of_not_mem {g : GroupId} {l : List (GroupId × ScheduleType)}
    (h : g ∉ l.map Prod.fst) : eraseGroup g l = l := by
  induction l with
  | nil => rfl
  | cons p rest ih =>
    obtain ⟨k, sch⟩ := p
    simp only [List.map_cons, List.mem_cons, not_or] at h
    unfold eraseGroup
    rw [if_neg (fun hkg => h.1 hkg.symm), ih h.2]

theorem sumGroupAmounts_eraseGroup {g : GroupId} {l : List (GroupId × ScheduleType)}
    {sch : ScheduleType} (hnd : (l.map Prod.fst).Nodup) (hf : findGroup g l = some sch) :
    sumGroupAmounts (eraseGroup g l) + sch.group_total_amount = sumGroupAmounts l := by
  induction l with
  | nil => simp [findGroup] at hf
  | cons p rest ih =>
    obtain ⟨k, sch0⟩ := p
    simp only [List.map_cons, List.nodup_cons] at hnd
    unfold findGroup at hf
    unfold eraseGroup
    by_cases hk : g = k
    · rw [if_pos hk] at hf
      have hs : sch0 = sch := Option.some.inj hf
      rw [if_pos hk.symm, eraseGroup_of_not_mem (hk ▸ hnd.1)]
      simp [sumGroupAmounts, hs]
      omega
    · rw [if_neg hk] at hf
      rw [if_neg (fun hkg => hk hkg.symm)]
      have := ih hnd.2 hf
      simp only [sumGroupAmounts, List.map_cons, List.sum_cons] at this ⊢
      omega

/-- The invariant maintained by `add_group` / `remove_group`: unique group
keys, and the stored `token_total_supply` equals the sum over live groups. -/
def GroupInv (s : State) : Prop :=
  (s.group_schedule.map Prod.fst).Nodup ∧
  s.token_total_supply = sumGroupAmounts s.group_schedule

theorem reachable_groupInv {s : State} (h : Reachable s) : GroupInv s := by
  induction h with
  | init now roles => exact ⟨by simp [initState], by simp [initState, sumGroupAmounts]⟩
  | add s s' g ta fx pct ua rp rt hr heq ih =>
    unfold add_group at heq
    split_ifs at heq with h1 h2 h3 h4 h5 h6 h7 <;>
      try exact Option.noConfusion heq
    all_goals {
      have hs' := Option.some.inj heq
      subst hs'
      have hnotmem : g ∉ (s.group_schedule.map Prod.fst) := by
        intro hm
        exact h2 (findGroup_isSome_of_mem hm)
      constructor
      · simp only [store_new_group, List.map_append, List.map_cons, List.map_nil]
        rw [List.nodup_append]
        exact ⟨ih.1, List.nodup_singleton g, by
          intro x hx hxg
          rw [List.mem_singleton.mp hxg] at hx
          exact hnotmem hx⟩
      · simp only [store_new_group, sumGroupAmounts, List.map_append, List.map_cons,
          List.map_nil, List.sum_append, List.sum_cons, List.sum_nil]
        have := ih.2
        simp only [sumGroupAmounts] at this
        omega
    }
  | remove s s' g hr heq ih =>
    unfold remove_group at heq
    by_cases hsetup : s.setup_period_status = false
    · rw [if_pos hsetup] at heq
      exact Option.noConfusion heq
    · rw [if_neg hsetup] at heq
      cases hf : findGroup g s.group_schedule with
      | none => rw [hf] at heq; exact Option.noConfusion heq
      | some group =>
        rw [hf] at heq
        dsimp only [] at heq
        split_ifs at heq with hle
        have hs' := Option.some.inj heq
        subst hs'
        constructor
        · exact ih.1.sublist ((eraseGroup_keys_sublist g s.group_schedule))
        · have hsum := sumGroupAmounts_eraseGroup ih.1 hf
          have h2 := ih.2
          simp only []
          omega

/-- C3: after any sequence of successful `add_group` and `remove_group`
calls from the initial state, `token_total_supply` equals the sum of
`group_total_amount` over the currently stored group schedules. -/
theorem token_total_supply_eq_sum_live_groups (s : State) (h : Reachable s) :
    s.token_total_supply = sumGroupAmounts s.group_schedule :=
  (reachable_groupInv h).2

/-- C3 witness at the concrete state reached by one `add_group`. -/
theorem token_total_supply_eq_sum_live_groups_witness :
    cAdded.token_total_supply = sumGroupAmounts cAdded.group_schedule :=
  token_total_supply_eq_sum_live_groups cAdded
    (Reachable.add cInit cAdded 1 100 true 0 10 10 10 (Reachable.init 0 true) rfl)

/-! ### C6 -/

theorem group_claimable_some_eq {s : State} {g : GroupId} {t : Nat} {sch : ScheduleType}
    (hf : findGroup g s.group_schedule = some sch) :
    group_claimable s t g =
      (if t < s.activation_timestamp then none
       else if sch.release_period = 0 then none
       else
         if 0 < min ((t - s.activation_timestamp) / sch.release_period) sch.release_ticks then
           if s.users_in_group g = 0 then none
           else some (group_payout sch
             (min ((t - s.activation_timestamp) / sch.release_period) sch.release_ticks)
             (s.users_in_group g))
         else some 0) := by
  unfold group_claimable
  rw [hf]

theorem group_payout_mono (sch : ScheduleType) (u : Nat) {p1 p2 : Nat} (hp : p1 ≤ p2) :
    group_payout sch p1 u ≤ group_payout sch p2 u := by
  unfold group_payout
  split_ifs with hfix
  · exact Nat.div_le_div_right (mul_le_mul_right' hp _)
  · exact Nat.div_le_div_right
      (Nat.div_le_div_right (mul_le_mul_right' (mul_le_mul_right' hp _) _))

theorem group_claimable_mono {s : State} {g : GroupId} {n1 n2 c1 c2 : Nat}
    (h12 : n1 ≤ n2) (h1 : group_claimable s n1 g = some c1)
    (h2 : group_claimable s n2 g = some c2) : c1 ≤ c2 := by
  cases hf : findGroup g s.group_schedule with
  | none => rw [group_claimable_of_findGroup_none hf] at h1; exact Option.noConfusion h1
  | some sch =>
    rw [group_claimable_some_eq hf] at h1 h2
    by_cases ha1 : n1 < s.activation_timestamp
    · rw [if_pos ha1] at h1; exact Option.noConfusion h1
    rw [if_neg ha1] at h1
    have ha2 : ¬ (n2 < s.activation_timestamp) := fun h => ha1 (lt_of_le_of_lt h12 h)
    rw [if_neg ha2] at h2
    by_cases hrp : sch.release_period = 0
    · rw [if_pos hrp] at h1; exact Option.noConfusion h1
    rw [if_neg hrp] at h1 h2
    have hp : min ((n1 - s.activation_timestamp) / sch.release_period) sch.release_ticks ≤
        min ((n2 - s.activation_timestamp) / sch.release_period) sch.release_ticks :=
      min_le_min (Nat.div_le_div_right (Nat.sub_le_sub_right h12 _)) le_rfl
    by_cases hp1 :
        0 < min ((n1 - s.activation_timestamp) / sch.release_period) sch.release_ticks
    · rw [if_pos hp1] at h1
      rw [if_pos (lt_of_lt_of_le hp1 hp)] at h2
      by_cases hu : s.users_in_group g = 0
      · rw [if_pos hu] at h1; exact Option.noConfusion h1
      · rw [if_neg hu] at h1 h2
        rw [← Option.some.inj h1, ← Option.some.inj h2]
        exact group_payout_mono sch _ hp
    · rw [if_neg hp1] at h1
      rw [← Option.some.inj h1]
      exact Nat.zero_le c2

theorem sum_claimable_mono {s : State} {l : List GroupId} {n1 n2 v1 v2 : Nat}
    (h12 : n1 ≤ n2) (h1 : sum_claimable s n1 l = some v1)
    (h2 : sum_claimable s n2 l = some v2) : v1 ≤ v2 := by
  induction l generalizing v1 v2 with
  | nil =>
    simp only [sum_claimable, Option.some.injEq] at h1 h2
    omega
  | cons g rest ih =>
    simp only [sum_claimable] at h1 h2
    rcases Option.bind_eq_some.mp h1 with ⟨c1, hc1, h1m⟩
    rcases Option.map_eq_some'.mp h1m with ⟨r1, hr1, hv1⟩
    rcases Option.bind_eq_some.mp h2 with ⟨c2, hc2, h2m⟩
    rcases Option.map_eq_some'.mp h2m with ⟨r2, hr2, hv2⟩
    subst hv1
    subst hv2
    exact Nat.add_le_add (group_claimable_mono h12 hc1 hc2) (ih hr1 hr2)

/-- C6: for a fixed state, the value computed by
`calculate_claimable_tokens` is non-decreasing in the block timestamp. -/
theorem calculate_claimable_tokens_mono (s : State) (a : Address) (n1 n2 v1 v2 : Nat)
    (h12 : n1 ≤ n2) (h1 : calculate_claimable_tokens s a n1 = some v1)
    (h2 : calculate_claimable_tokens s a n2 = some v2) : v1 ≤ v2 :=
  sum_claimable_mono h12 h1 h2

/-- C6 witness: one period elapsed pays 10, two and a half periods pay 20. -/
theorem calculate_claimable_tokens_mono_witness :
    calculate_claimable_tokens cClosed 5 10 = some 10 ∧
    calculate_claimable_tokens cClosed 5 25 = some 20 ∧ 10 ≤ 20 :=
  ⟨by decide, by decide,
    calculate_claimable_tokens_mono cClosed 5 10 25 10 20 (by norm_num) (by decide)
      (by decide)⟩

/-! ### C7 -/

theorem group_payout_le_of_wf {sch : ScheduleType} {p : Nat} (u : Nat)
    (hwf : ScheduleWF sch) (hp : p ≤ sch.release_ticks) :
    group_payout sch p u ≤ sch.group_total_amount / u := by
  unfold ScheduleWF at hwf
  unfold group_payout
  split_ifs with hfix
  · rw [if_pos hfix] at hwf
    apply Nat.div_le_div_right
    calc p * sch.period_unlock_amount
        ≤ sch.release_ticks * sch.period_unlock_amount := mul_le_mul_right' hp _
      _ = sch.period_unlock_amount * sch.release_ticks := Nat.mul_comm _ _
      _ = sch.group_total_amount := hwf
  · rw [if_neg hfix] at hwf
    apply Nat.div_le_div_right
    have h1 : p * sch.group_total_amount * sch.group_unlock_percent ≤
        sch.group_total_amount * 100 := by
      calc p * sch.group_total_amount * sch.group_unlock_percent
          ≤ sch.release_ticks * sch.group_total_amount * sch.group_unlock_percent :=
            mul_le_mul_right' (mul_le_mul_right' hp _) _
        _ = sch.group_total_amount * (sch.group_unlock_percent * sch.release_ticks) := by
            ring
        _ = sch.group_total_amount * 100 := by rw [hwf]
    calc p * sch.group_total_amount * sch.group_unlock_percent / 100
        ≤ sch.group_total_amount * 100 / 100 := Nat.div_le_div_right h1
      _ = sch.group_total_amount := Nat.mul_div_cancel _ (by norm_num)

theorem group_claimable_le_bound {s : State} {t : Nat} {g : GroupId} {c : Nat}
    (h : group_claimable s t g = some c)
    (hwf : ∀ sch, findGroup g s.group_schedule = some sch → ScheduleWF sch) :
    c ≤ group_bound s g := by
  cases hf : findGroup g s.group_schedule with
  | none => rw [group_claimable_of_findGroup_none hf] at h; exact Option.noConfusion h
  | some sch =>
    rw [group_claimable_some_eq hf] at h
    unfold group_bound
    rw [hf]
    split_ifs at h with h1 h2 h3 h4
    · rw [← Option.some.inj h]
      exact group_payout_le_of_wf _ (hwf sch hf) (min_le_right _ _)
    · rw [← Option.some.inj h]
      exact Nat.zero_le _

theorem sum_claimable_le_bound {s : State} {t : Nat} {l : List GroupId} {v : Nat}
    (h : sum_claimable s t l = some v)
    (hwf : ∀ g, g ∈ l → ∀ sch, findGroup g s.group_schedule = some sch → ScheduleWF sch) :
    v ≤ (l.map (group_bound s)).sum := by
  induction l generalizing v with
  | nil =>
    simp only [sum_claimable, Option.some.injEq] at h
    simp [← h]
  | cons g rest ih =>
    simp only [sum_claimable] at h
    rcases Option.bind_eq_some.mp h with ⟨c, hc, hm⟩
    rcases Option.map_eq_some'.mp hm with ⟨r, hr, hv⟩
    subst hv
    simp only [List.map_cons, List.sum_cons]
    exact Nat.add_le_add
      (group_claimable_le_bound hc (hwf g (List.mem_cons_self g rest)))
      (ih hr (fun g' hg' => hwf g' (List.mem_cons_of_mem g hg')))

/-- C7: whenever `calculate_claimable_tokens` returns a value and the
address's stored groups satisfy the schedule invariant that `add_group`
enforces, the value is at most the sum over the address's groups of
`group_total_amount / users_in_group` — the periods clamp makes the bound
hold for every timestamp. -/
theorem calculate_claimable_tokens_bounded (s : State) (a : Address) (now v : Nat)
    (hwf : ∀ g, g ∈ s.user_groups a →
      ∀ sch, findGroup g s.group_schedule = some sch → ScheduleWF sch)
    (h : calculate_claimable_tokens s a now = some v) :
    v ≤ claim_bound s a :=
  sum_claimable_le_bound h hwf

/-- C7 witness: far in the future (200 periods, clamped to 10) the claimable
amount is exactly the bound of 100. -/
theorem calculate_claimable_tokens_bounded_witness :
    calculate_claimable_tokens cClosed 5 2000 = some 100 ∧ 100 ≤ claim_bound cClosed 5 :=
  ⟨by decide,
    calculate_claimable_tokens_bounded cClosed 5 2000 100
      (by
        intro g hg sch hfind
        have hl : cClosed.user_groups 5 = [1] := by decide
        rw [hl] at hg
        have hg1 : g = 1 := List.mem_singleton.mp hg
        subst hg1
        have hf1 : findGroup 1 cClosed.group_schedule = some ⟨100, true, 0, 10, 10, 10⟩ := by
          decide
        rw [hf1] at hfind
        obtain rfl := Option.some.inj hfind
        norm_num [ScheduleWF])
      (by decide)⟩

/-! ### C4 -/

theorem sum_claimable_congr {s s' : State} {t : Nat} (l : List GroupId)
    (h : ∀ g, group_claimable s' t g = group_claimable s t g) :
    sum_claimable s' t l = sum_claimable s t l := by
  induction l with
  | nil => rfl
  | cons g rest ih => simp only [sum_claimable, h, ih]

theorem apply_claim_setup (s : State) (c : Address) (a : Nat) :
    (apply_claim s c a).setup_period_status = s.setup_period_status := rfl

theorem apply_claim_claimed_self (s : State) (c : Address) (a : Nat) :
    (apply_claim s c a).claimed_balance c = s.claimed_balance c + a := by
  unfold apply_claim
  simp

theorem calculate_claimable_tokens_apply_claim (s : State) (caller : Address)
    (amount : Nat) (a : Address) (t : Nat) :
    calculate_claimable_tokens (apply_claim s caller amount) a t =
      calculate_claimable_tokens s a t := by
  unfold calculate_claimable_tokens apply_claim
  exact sum_claimable_congr _ (fun g => rfl)

/-- C4: with the setup period closed and the accrual computation returning
`total`, `claim_tokens` fails with the nothing-to-claim error exactly when
`total` is not strictly greater than the caller's claimed balance (failures
return no state: the VM rolls the call back); on success it sends exactly
`total` minus the prior claimed balance, the claimed balance becomes
`total`, and an immediate second call at the same timestamp fails with the
nothing-to-claim error. -/
theorem claim_tokens_spec (s s' : State) (caller : Address) (now total d : Nat)
    (hsetup : s.setup_period_status = false)
    (hcalc : calculate_claimable_tokens s caller now = some total) :
    (claim_tokens s caller now = Except.error ClaimErr.nothingToClaim ↔
      total ≤ s.claimed_balance caller) ∧
    (claim_tokens s caller now = Except.ok (s', d) →
      d = total - s.claimed_balance caller ∧
      s'.claimed_balance caller = total ∧
      s'.sent = s.sent ++ [(caller, d)] ∧
      claim_tokens s' caller now = Except.error ClaimErr.nothingToClaim) := by
  have hsetup' : ¬ (s.setup_period_status = true) := by simp [hsetup]
  unfold claim_tokens
  rw [if_neg hsetup', hcalc]
  dsimp only []
  by_cases hlt : s.claimed_balance caller < total
  · rw [if_pos hlt]
    constructor
    · constructor
      · intro h
        exact Except.noConfusion h
      · intro h
        omega
    · intro hok
      obtain ⟨hs1, hd1⟩ := Prod.mk.inj (Except.ok.inj hok)
      subst hd1
      subst hs1
      refine ⟨rfl, ?_, rfl, ?_⟩
      · rw [apply_claim_claimed_self]
        omega
      · rw [calculate_claimable_tokens_apply_claim, hcalc, apply_claim_setup,
          if_neg hsetup']
        dsimp only []
        rw [if_neg (by rw [apply_claim_claimed_self]; omega)]
  · rw [if_neg hlt]
    refine ⟨iff_of_true rfl (by omega), ?_⟩
    intro hok
    exact Except.noConfusion hok

/-- C4 witness: at `cClosed` (one period elapsed, nothing claimed yet) the
claim succeeds, pays 10, and a repeat claim at the same timestamp fails. -/
theorem claim_tokens_spec_witness :
    (claim_tokens cClosed 5 10 = Except.error ClaimErr.nothingToClaim ↔
      10 ≤ cClosed.claimed_balance 5) ∧
    (claim_tokens cClosed 5 10 = Except.ok (cAfterClaim, 10) →
      10 = 10 - cClosed.claimed_balance 5 ∧
      cAfterClaim.claimed_balance 5 = 10 ∧
      cAfterClaim.sent = cClosed.sent ++ [(5, 10)] ∧
      claim_tokens cAfterClaim 5 10 = Except.error ClaimErr.nothingToClaim) :=
  claim_tokens_spec cClosed cAfterClaim 5 10 10 10 rfl (by decide)

/-! ### C5 and C9 -/

/-- Explicit form of a successful `approve_address_change`: the new address
receives the old address's records, then the old address's records and the
request are cleared (so if `new = old` the clears win). -/
theorem approve_address_change_eq (s : State) (old new : Address)
    (hsetup : s.setup_period_status = false)
    (hreq : s.address_change_request old = some new) :
    approve_address_change s old = some
      { s with
        user_groups := fun x => if x = old then [] else
          if x = new then s.user_groups old else s.user_groups x
        claimed_balance := fun x => if x = old then 0 else
          if x = new then s.claimed_balance old else s.claimed_balance x
        address_change_request := fun x => if x = old then none
          else s.address_change_request x } := by
  unfold approve_address_change
  rw [if_neg (by simp [hsetup]), hreq]

/-- C5 counterexample: the claim quantifies over every pending change
request, but for a request whose target equals the source (here address 5,
member of group 1, requests a change to itself) the approval clears the
address after copying, so the new address ends with `[]` instead of the
pre-change membership list `[1]`. -/
theorem address_change_self_counterexample :
    cClosed.setup_period_status = false ∧
    request_address_change cClosed 5 5 = some cReqSelf ∧
    approve_address_change cReqSelf 5 = some cAppSelf ∧
    cReqSelf.user_groups 5 = [1] ∧
    cAppSelf.user_groups 5 = [] :=
  ⟨by decide, rfl, rfl, by decide, by decide⟩

/-- C5 amended: provided the requested new address differs from the old
one, `request_address_change` followed by `approve_address_change` gives the
new address exactly the old address's pre-change membership list and
claimed balance, clears the old address's records, and clears the pending
request. -/
theorem address_change_round_trip (s s1 s2 : State) (old new : Address)
    (hsetup : s.setup_period_status = false) (hne : new ≠ old)
    (hreq : request_address_change s old new = some s1)
    (happ : approve_address_change s1 old = some s2) :
    s2.user_groups new = s.user_groups old ∧
    s2.claimed_balance new = s.claimed_balance old ∧
    s2.user_groups old = [] ∧
    s2.claimed_balance old = 0 ∧
    s2.address_change_request old = none := by
  unfold request_address_change at hreq
  rw [if_neg (by simp [hsetup])] at hreq
  have hs1 := Option.some.inj hreq
  have h1 : s1.setup_period_status = false := by rw [← hs1]; exact hsetup
  have h2 : s1.address_change_request old = some new := by rw [← hs1]; simp
  have h3 : s1.user_groups = s.user_groups := by rw [← hs1]
  have h4 : s1.claimed_balance = s.claimed_balance := by rw [← hs1]
  rw [approve_address_change_eq s1 old new h1 h2] at happ
  have hs2 := Option.some.inj happ
  subst hs2
  refine ⟨?_, ?_, ?_, ?_, ?_⟩ <;> simp [hne, h3, h4]

/-- C5 amended, witness: address 5 requests a change to address 9. -/
theorem address_change_round_trip_witness :
    cApp9.user_groups 9 = cClosed.user_groups 5 ∧
    cApp9.claimed_balance 9 = cClosed.claimed_balance 5 ∧
    cApp9.user_groups 5 = [] ∧
    cApp9.claimed_balance 5 = 0 ∧
    cApp9.address_change_request 5 = none :=
  address_change_round_trip cClosed cReq9 cApp9 5 9 (by decide) (by decide) rfl rfl

/-- C9 counterexample: the claim quantifies over every pending request whose
target has records of its own, but when the target equals the source (here
address 8, member of group 2, with a self-request) the target's records are
not replaced by the old address's values — they are cleared. -/
theorem approve_overwrite_self_counterexample :
    c9req.user_groups 8 = [2] ∧
    c9req.address_change_request 8 = some 8 ∧
    approve_address_change c9req 8 = some c9app ∧
    c9app.user_groups 8 = [] :=
  ⟨by decide, by decide, rfl, by decide⟩

/-- C9 amended: provided the pending target differs from the source,
`approve_address_change` replaces the target's memberships and claimed
balance wholesale with the source's values (no merging), and no per-group
member counter is touched — in particular the counters of the target's
previous groups are not decremented. -/
theorem approve_address_change_overwrites (s s' : State) (old new : Address)
    (hsetup : s.setup_period_status = false)
    (hreq : s.address_change_request old = some new)
    (hne : new ≠ old)
    (happ : approve_address_change s old = some s') :
    s'.user_groups new = s.user_groups old ∧
    s'.claimed_balance new = s.claimed_balance old ∧
    s'.users_in_group = s.users_in_group := by
  rw [approve_address_change_eq s old new hsetup hreq] at happ
  have hs' := Option.some.inj happ
  subst hs'
  refine ⟨?_, ?_, rfl⟩ <;> simp [hne]

/-- C9 amended, witness: target address 9 has its own membership `[2]`
before the approval; afterwards it holds the source's list `[1]`, and all
member counters are untouched. -/
theorem approve_address_change_overwrites_witness :
    w9e.user_groups 9 = w9d.user_groups 5 ∧
    w9e.claimed_balance 9 = w9d.claimed_balance 5 ∧
    w9e.users_in_group = w9d.users_in_group :=
  approve_address_change_overwrites w9d w9e 5 9 (by decide) (by decide) (by decide) rfl

/-! ### C8 -/

theorem update_users_in_group_add (s : State) (g : GroupId) :
    update_users_in_group s g true =
      if s.users_in_group g + 1 < U64_MOD then
        some { s with users_in_group :=
          fun k => if k = g then s.users_in_group g + 1 else s.users_in_group k }
      else none := rfl

theorem add_user_group_mem_eq (s : State) (a : Address) (g : GroupId)
    (hset : ¬ s.setup_period_status = false)
    (hfind : ¬ (findGroup g s.group_schedule).isNone = true)
    (hne : s.user_groups a ≠ [])
    (hmem : g ∈ s.user_groups a) :
    add_user_group s a g = some s := by
  unfold add_user_group
  rw [if_neg hset, if_neg hfind, if_pos hne, if_pos hmem]

theorem add_user_group_not_mem_eq (s : State) (a : Address) (g : GroupId)
    (hset : ¬ s.setup_period_status = false)
    (hfind : ¬ (findGroup g s.group_schedule).isNone = true)
    (hmem : g ∉ s.user_groups a)
    (hov : s.users_in_group g + 1 < U64_MOD) :
    add_user_group s a g = some
      { s with
        user_groups := fun x => if x = a then s.user_groups a ++ [g]
          else s.user_groups x
        users_in_group := fun k => if k = g then s.users_in_group g + 1
          else s.users_in_group k } := by
  unfold add_user_group
  by_cases hne : s.user_groups a ≠ []
  · rw [if_neg hset, if_neg hfind, if_pos hne, if_neg hmem,
      update_users_in_group_add, if_pos hov]
    rfl
  · have hnil : s.user_groups a = [] := not_not.mp hne
    rw [if_neg hset, if_neg hfind, if_neg hne, update_users_in_group_add, if_pos hov]
    have hug : (fun x => if x = a then ([g] : List GroupId)
        else s.user_groups x) = (fun x => if x = a then s.user_groups a ++ [g]
        else s.user_groups x) := by
      funext x
      by_cases hx : x = a
      · simp [hx, hnil]
      · simp [hx]
    simp only [Option.map_some']
    rw [hug]

/-- C8: a successful `add_user_group` is idempotent — repeating the call
succeeds and returns exactly the same state, and the group's member counter
exceeds its pre-call value by at most one (exactly one on first insertion,
zero on the no-op repeat). -/
theorem add_user_group_idempotent (s s' : State) (a : Address) (g : GroupId)
    (h : add_user_group s a g = some s') :
    add_user_group s' a g = some s' ∧
    s'.users_in_group g ≤ s.users_in_group g + 1 := by
  by_cases hset : s.setup_period_status = false
  · unfold add_user_group at h
    rw [if_pos hset] at h
    exact Option.noConfusion h
  by_cases hfind : (findGroup g s.group_schedule).isNone = true
  · unfold add_user_group at h
    rw [if_neg hset, if_pos hfind] at h
    exact Option.noConfusion h
  by_cases hmem : g ∈ s.user_groups a
  · have hne : s.user_groups a ≠ [] := by
      intro hx
      rw [hx] at hmem
      simp at hmem
    rw [add_user_group_mem_eq s a g hset hfind hne hmem] at h
    have hs := Option.some.inj h
    subst hs
    exact ⟨add_user_group_mem_eq s a g hset hfind hne hmem, Nat.le_succ _⟩
  · by_cases hov : s.users_in_group g + 1 < U64_MOD
    · rw [add_user_group_not_mem_eq s a g hset hfind hmem hov] at h
      have hs := Option.some.inj h
      subst hs
      constructor
      · refine add_user_group_mem_eq _ a g hset hfind ?_ ?_
        · show (if a = a then s.user_groups a ++ [g] else s.user_groups a) ≠ []
          rw [if_pos rfl]
          simp
        · show g ∈ (if a = a then s.user_groups a ++ [g] else s.user_groups a)
          rw [if_pos rfl]
          simp
      · show (if g = g then s.users_in_group g + 1 else s.users_in_group g) ≤
          s.users_in_group g + 1
        rw [if_pos rfl]
    · unfold add_user_group at h
      rw [if_neg hset, if_neg hfind] at h
      by_cases hne : s.user_groups a ≠ []
      · rw [if_pos hne, if_neg hmem, update_users_in_group_add, if_neg hov] at h
        exact Option.noConfusion h
      · rw [if_neg hne, update_users_in_group_add, if_neg hov] at h
        exact Option.noConfusion h

/-- C8 witness: adding address 5 to group 1 a second time is a successful
no-op at the concrete state. -/
theorem add_user_group_idempotent_witness :
    add_user_group cMember 5 1 = some cMember ∧
    cMember.users_in_group 1 ≤ cAdded.users_in_group 1 + 1 :=
  add_user_group_idempotent cAdded cMember 5 1 rfl

/-! ### C10 -/

theorem update_users_in_group_remove (s : State) (g : GroupId) :
    update_users_in_group s g false =
      if s.users_in_group g = 0 then none
      else some { s with users_in_group :=
        fun k => if k = g then s.users_in_group g - 1 else s.users_in_group k } := rfl

theorem remove_user_loop_none {g : GroupId} :
    ∀ (l : List GroupId) (s : State), g ∈ l → s.users_in_group g = 0 →
      remove_user_loop s l = none := by
  intro l
  induction l with
  | nil =>
    intro s hmem _
    simp at hmem
  | cons b rest ih =>
    intro s hmem hzero
    unfold remove_user_loop
    rw [update_users_in_group_remove]
    by_cases hb : s.users_in_group b = 0
    · rw [if_pos hb]
    · rw [if_neg hb]
      dsimp only []
      have hbg : b ≠ g := fun hbg => hb (hbg ▸ hzero)
      have hmem' : g ∈ rest := by
        rcases List.mem_cons.mp hmem with hgb | hr
        · exact absurd hgb.symm hbg
        · exact hr
      refine ih _ hmem' ?_
      show (if g = b then s.users_in_group b - 1 else s.users_in_group g) = 0
      rw [if_neg (fun hgb => hbg hgb.symm)]
      exact hzero

theorem update_users_in_group_wrap_users_ne (s : State) (b : GroupId) (fl : Bool)
    (g : GroupId) (h : g ≠ b) :
    (update_users_in_group_wrap s b fl).users_in_group g = s.users_in_group g := by
  unfold update_users_in_group_wrap
  dsimp only []
  rw [if_neg h]

theorem update_users_in_group_wrap_users_self (s : State) (b : GroupId) :
    (update_users_in_group_wrap s b false).users_in_group b =
      (s.users_in_group b + (U64_MOD - 1)) % U64_MOD := by
  unfold update_users_in_group_wrap
  dsimp only []
  rw [if_pos rfl]
  simp

theorem remove_user_loop_wrap_users_not_mem {g : GroupId} :
    ∀ (l : List GroupId) (s : State), g ∉ l →
      (remove_user_loop_wrap s l).users_in_group g = s.users_in_group g := by
  intro l
  induction l with
  | nil =>
    intro s _
    rfl
  | cons b rest ih =>
    intro s h
    unfold remove_user_loop_wrap
    rw [ih _ (fun hr => h (List.mem_cons_of_mem b hr))]
    exact update_users_in_group_wrap_users_ne s b false g
      (fun hgb => h (hgb ▸ List.mem_cons_self b rest))

theorem remove_user_loop_wrap_count_one {g : GroupId} :
    ∀ (l : List GroupId) (s : State), l.count g = 1 →
      (remove_user_loop_wrap s l).users_in_group g =
        (s.users_in_group g + (U64_MOD - 1)) % U64_MOD := by
  intro l
  induction l with
  | nil =>
    intro s h
    simp at h
  | cons b rest ih =>
    intro s h
    unfold remove_user_loop_wrap
    by_cases hbg : b = g
    · subst hbg
      rw [List.count_cons_self] at h
      have hnm : b ∉ rest := List.count_eq_zero.mp (by omega)
      rw [remove_user_loop_wrap_users_not_mem rest _ hnm]
      exact update_users_in_group_wrap_users_self s b
    · have hcc := List.count_cons g b rest
      have hne : (b == g) = false := beq_eq_false_iff_ne.mpr hbg
      rw [hne] at hcc
      simp at hcc
      rw [hcc] at h
      rw [ih _ h, update_users_in_group_wrap_users_ne s b false g
        (fun hgb => hbg hgb.symm)]

/-- C10: in any state where an address's stored group list contains a group
whose member counter is zero (as arises from `add_group`, `add_user_group`,
`remove_group`), `remove_user` decrements the zero counter without a guard:
under overflow-checked `u64` arithmetic the call aborts, and under
release-build wrapping arithmetic the counter becomes `2 ^ 64 - 1`. -/
theorem remove_user_zero_counter_underflow (s s' : State) (a : Address) (g : GroupId)
    (hsetup : s.setup_period_status = true)
    (hcount : (s.user_groups a).count g = 1)
    (hzero : s.users_in_group g = 0)
    (hw : remove_user_wrap s a = some s') :
    remove_user s a = none ∧ s'.users_in_group g = U64_MOD - 1 := by
  have hmem : g ∈ s.user_groups a := List.count_pos_iff.mp (by omega)
  have hnil : s.user_groups a ≠ [] := by
    intro hx
    rw [hx] at hmem
    simp at hmem
  have hset' : ¬ (s.setup_period_status = false) := by simp [hsetup]
  constructor
  · unfold remove_user
    rw [if_neg hset', if_neg hnil, remove_user_loop_none _ _ hmem hzero]
  · unfold remove_user_wrap at hw
    rw [if_neg hset', if_neg hnil] at hw
    dsimp only [] at hw
    have hs' := Option.some.inj hw
    subst hs'
    show (remove_user_loop_wrap s (s.user_groups a)).users_in_group g = U64_MOD - 1
    rw [remove_user_loop_wrap_count_one _ _ hcount, hzero, Nat.zero_add]
    exact Nat.mod_eq_of_lt (by norm_num [U64_MOD])

/-- C10 witness: the state reached by `add_group`, `add_user_group`,
`remove_group` has address 5 still listing group 1 with a zero counter;
`remove_user` aborts under checked arithmetic, and the wrapping variant
leaves the counter at `2 ^ 64 - 1`. -/
theorem remove_user_zero_counter_underflow_witness :
    remove_user cRemoved 5 = none ∧ cRemovedWrap.users_in_group 1 = U64_MOD - 1 :=
  remove_user_zero_counter_underflow cRemoved cRemovedWrap 5 1 (by decide) (by decide)
    (by decide) rfl

end TokenRelease
